import Mathlib

/-!
# qjs-enet: the QuickJS binding of the ENet transport (`qjs_enet.c`)

A shallow embedding of the binding functions of `qjs_enet.c`.  The functions of
the two libraries the file links against (QuickJS: `JS_ToCString`,
`JS_ToInt32`, `JS_NewObjectClass`, `JS_JSONStringify`, `JS_ParseJSON`; ENet:
`enet_address_set_host_ip`, `enet_host_create`, `enet_host_service`, ...) are
not part of the file; they are taken as the fields of an environment `Env`, and
every call the binding makes into the transport, and every invocation of the
script callback, is recorded in order in a log of `Effect`s.
-/

namespace QjsEnet

/-! ## C strings and the scan `sscanf(address_str, "%63[^:]:%d", ip, &port)` -/

/-- The terminating character of a C string. -/
def NUL : Char := Char.ofNat 0

/-- The characters a C function reads through a `const char *` into the buffer
`buf`: those before the first NUL.  One `Char` stands for one C `char`. -/
def cstr (buf : List Char) : List Char :=
  buf.takeWhile (fun c => c != NUL)

/-- C `strlen`. -/
def strlen (buf : List Char) : Nat :=
  (cstr buf).length

/-- C `isspace` in the "C" locale: space, `\t`, `\n`, `\v`, `\f`, `\r`. -/
def isspace (c : Char) : Bool :=
  c.toNat == 32 || (9 ≤ c.toNat && c.toNat ≤ 13)

/-- C `isdigit`. -/
def isdigit (c : Char) : Bool :=
  48 ≤ c.toNat && c.toNat ≤ 57

/-- The value of a run of decimal digits, most significant first. -/
def decValue (ds : List Char) : Nat :=
  ds.foldl (fun acc c => 10 * acc + (c.toNat - 48)) 0

/-- The value an `int` object holds after the mathematical integer `x` is
stored in it.  For `x` within the range of `int` this is `x`; outside it the C
standard leaves the result of `%d` undefined, and the model wraps. -/
def wrapInt32 (x : Int) : Int :=
  (x + 2147483648) % 4294967296 - 2147483648

/-- The conversion of an `int` to `enet_uint16` in `address.port = port`. -/
def toUint16 (x : Int) : Nat :=
  (x % 65536).toNat

/-- The conversion of an `int` to `enet_uint32` (the timeout parameter of
`enet_host_service`). -/
def toUint32 (x : Int) : Nat :=
  (x % 4294967296).toNat

/-- The sign of a `%d` field: an optional leading `-` or `+`. -/
def scanSign (s : List Char) : Bool × List Char :=
  match s with
  | c :: t => if c = '-' then (true, t) else if c = '+' then (false, t) else (false, s)
  | [] => (false, s)

/-- The directive `%d`: skips white space, reads an optional sign and a
non-empty run of decimal digits; what follows the digits is left unread.
`none` when no digit is found. -/
def scan_d (s : List Char) : Option Int :=
  let signed := scanSign (s.dropWhile isspace)
  let ds := signed.2.takeWhile isdigit
  if ds.isEmpty then none
  else some (wrapInt32 (if signed.1 then -(decValue ds : Int) else (decValue ds : Int)))

/-- The directive `%63[^:]`: the longest run of at most 63 characters other
than `:` at the head of the input (no white space is skipped). -/
def scanSet63 (s : List Char) : List Char :=
  (s.takeWhile (fun c => c != ':')).take 63

/-- What `sscanf(address_str, "%63[^:]:%d", ip, &port)` leaves behind. -/
inductive Scan where
  | eof
  | zero
  | one (ip : List Char)
  | two (ip : List Char) (port : Int)

/-- The return value of `sscanf`: the number of fields converted, or `EOF`. -/
def Scan.count : Scan → Int
  | .eof => -1
  | .zero => 0
  | .one _ => 1
  | .two _ _ => 2

/-- Model of `sscanf(address_str, "%63[^:]:%d", ip, &port)`. -/
def sscanf_ip_port (address_str : List Char) : Scan :=
  let s := cstr address_str
  let run := scanSet63 s
  if s.isEmpty then .eof
  else if run.isEmpty then .zero
  else
    match s.drop run.length with
    | c :: rest =>
      if c = ':' then
        match scan_d rest with
        | some port => .two run port
        | none => .one run
      else .one run
    | [] => .one run

/-! ## Script values, native handles and the environment -/

/-- The two classes the module registers. -/
inductive JSClassID where
  | enet_host_id
  | enet_peer_class_id
  deriving DecidableEq, Repr

/-- The error left pending when a binding function returns `JS_EXCEPTION`. -/
inductive JSError where
  | typeError (msg : String)
  | internalError (msg : String)
  | pending
  deriving DecidableEq, Repr

/-- Script values, as far as the binding tells them apart.  `classObject` is an
object of a registered class with the native pointer set by `JS_SetOpaque`
(`none` is `NULL`); `object` is a plain object with its properties in the order
they were set. -/
inductive JSValue where
  | undefined
  | null
  | exception (err : JSError)
  | int32 (n : Int)
  | string (s : String)
  | function (id : Nat)
  | classObject (cls : JSClassID) (handle : Option Nat)
  | object (props : List (String × JSValue))

/-- `JS_IsException`. -/
def JS_IsException : JSValue → Bool
  | .exception _ => true
  | _ => false

/-- `JS_IsFunction`. -/
def JS_IsFunction : JSValue → Bool
  | .function _ => true
  | _ => false

/-- `JS_IsObject`: functions are objects too. -/
def JS_IsObject : JSValue → Bool
  | .function _ => true
  | .classObject _ _ => true
  | .object _ => true
  | _ => false

/-- `JS_GetOpaque(val, class_id)`: the native pointer of an object of that
class, `NULL` for anything else. -/
def JS_GetOpaque (val : JSValue) (class_id : JSClassID) : Option Nat :=
  match val with
  | .classObject cls handle => if cls = class_id then handle else none
  | _ => none

/-- An `ENetAddress`.  `host` is `none` while the field has not been written. -/
structure ENetAddress where
  host : Option Nat
  port : Nat
  deriving DecidableEq, Repr

/-- An `ENetPacket`: its buffer and `dataLength`. -/
structure ENetPacket where
  data : List Char
  dataLength : Nat
  deriving DecidableEq, Repr

/-- An `ENetEvent` as returned by a poll that reports an event. -/
inductive ENetEvent where
  | connect (peer : Nat)
  | receive (peer : Nat) (channelID : Nat) (packet : ENetPacket)
  | disconnect (peer : Nat)
  deriving DecidableEq, Repr

/-- The result of one `enet_host_service` poll: an event (return value `> 0`),
nothing within the wait (`0`), or a failure (`< 0`). -/
inductive Poll where
  | event (e : ENetEvent)
  | nothing
  | failure
  deriving DecidableEq, Repr

/-- The external functions the binding calls.  `JS_ToInt32` yields `.ok n` when
it returns 0 having stored `n`, and `.error n` when it fails, `n` being what
the output variable holds afterwards.  `JS_NewObjectClass_fails k` tells
whether the `k`-th `JS_NewObjectClass` of the current call (counted from 0)
returns an exception.  `enet_host_service k` is the result of the `k`-th poll
of the current call (counted from 0). -/
structure Env where
  JS_ToCString : JSValue → Option (List Char)
  JS_ToInt32 : JSValue → Except Int Int
  JS_NewObjectClass_fails : Nat → Bool
  JS_JSONStringify : JSValue → JSValue
  JS_ParseJSON : List Char → JSValue
  enet_address_set_host_ip : List Char → Except Int Nat
  enet_address_set_host : Option (List Char) → Option Nat
  enet_host_create : Option ENetAddress → Nat → Nat → Nat → Nat → Option Nat
  enet_host_service : Nat → Poll
  enet_host_connect : Nat → ENetAddress → Nat → Nat → Option Nat
  enet_peer_send : Nat → Nat → ENetPacket → Int

/-- One observable action of the binding: a call into the transport, or an
invocation of the script callback (`JS_Call`). -/
inductive Effect where
  | enet_address_set_host_ip (ip : List Char)
  | enet_address_set_host (name : Option (List Char))
  | enet_host_create (address : Option ENetAddress) (peerCount channelLimit inBw outBw : Nat)
  | enet_host_destroy (host : Option Nat)
  | enet_host_service (host : Nat) (timeout : Nat)
  | enet_host_connect (host : Nat) (address : ENetAddress) (channelCount data : Nat)
  | enet_packet_create (data : List Char) (dataLength : Nat)
  | enet_packet_destroy (packet : ENetPacket)
  | enet_peer_send (peer channelID : Nat) (packet : ENetPacket)
  | enet_host_broadcast (host channelID : Nat) (packet : ENetPacket)
  | enet_peer_throttle_configure (peer : Nat) (interval acceleration deceleration : Int)
  | enet_peer_timeout (peer : Nat) (timeoutLimit timeoutMinimum timeoutMaximum : Int)
  | JS_Call (callback : JSValue) (arg : JSValue)

/-- The result of a binding call: the value returned to the script and the
effects performed, in order. -/
structure Outcome where
  result : JSValue
  log : List Effect

/-! ## `js_enet_host_create` -/

/-- The code after the label `RET`: wrap `host` in a new object of class
`enet_host_id`. -/
def host_create_RET (E : Env) (host : Option Nat) (log : List Effect) : Outcome :=
  if E.JS_NewObjectClass_fails 0 then
    ⟨.exception .pending, log ++ [.enet_host_destroy host]⟩
  else
    ⟨.classObject .enet_host_id host, log⟩

/-- Model of `js_enet_host_create(ctx, this_val, argc, argv)`.  The test
`sscanf(...) != 2` is the match on `Scan.two`: that is the one result whose
count is 2. -/
def js_enet_host_create (E : Env) (argv : List JSValue) : Outcome :=
  match argv with
  | [] =>
    host_create_RET E (E.enet_host_create none 32 2 0 0) [.enet_host_create none 32 2 0 0]
  | arg0 :: _ =>
    match E.JS_ToCString arg0 with
    | none => ⟨.exception .pending, []⟩
    | some address_str =>
      match sscanf_ip_port address_str with
      | .two ip port =>
        match E.enet_address_set_host_ip ip with
        | .error _ =>
          ⟨.exception (.internalError "Failed to set host IP from %s. Error %d."),
            [.enet_address_set_host_ip ip]⟩
        | .ok h =>
          let address : ENetAddress := ⟨some h, toUint16 port⟩
          let log := [.enet_address_set_host_ip ip, .enet_host_create (some address) 32 2 0 0]
          match E.enet_host_create (some address) 32 2 0 0 with
          | none => ⟨.exception (.internalError "Failed to create ENet host."), log⟩
          | some host => host_create_RET E (some host) log
      | _ =>
        ⟨.exception (.typeError "Invalid address format. Expected format: 'ip:port'"), []⟩

/-! ## `js_enet_host_service` -/

/-- The bytes `JS_ParseJSON(ctx, buf, buf_len, ...)` is asked to decode. -/
def parseInput (packet : ENetPacket) : List Char :=
  packet.data.take packet.dataLength

/-- The body of the `switch (event.type)`: the event object handed to the
callback and the transport calls made while building it.  `JS_NewObject`,
`JS_NewString`, `JS_NewInt32` and `JS_SetPropertyStr`, whose results the code
does not test, are taken to succeed.  `.error v` is the
early `return peer_obj` of the connect case; `allocs` counts the
`JS_NewObjectClass` calls made so far in this `service` call. -/
def event_obj (E : Env) (allocs : Nat) : ENetEvent → Except JSValue (JSValue × List Effect)
  | .connect peer =>
    if E.JS_NewObjectClass_fails allocs then .error (.exception .pending)
    else .ok (.object [("type", .string "connect"),
                       ("peer", .classObject .enet_peer_class_id (some peer))], [])
  | .receive _ channelID packet =>
    let parsed := E.JS_ParseJSON (parseInput packet)
    let packet_data := if JS_IsException parsed then JSValue.null else parsed
    .ok (.object [("type", .string "receive"),
                  ("channelID", .int32 channelID),
                  ("data", packet_data)], [.enet_packet_destroy packet])
  | .disconnect _ =>
    .ok (.object [("type", .string "disconnect")], [])

/-- The number of `JS_NewObjectClass` calls one event costs. -/
def allocsOf : ENetEvent → Nat
  | .connect _ => 1
  | _ => 0

/-- The loop `while (enet_host_service(host, &event, timeout) > 0) { ... }`,
entered before the `k`-th poll.  `none` when `fuel` iterations do not reach the
end of the loop. -/
def service_loop (E : Env) (host : Nat) (callback : JSValue) (timeout : Int) :
    Nat → Nat → Nat → Option Outcome
  | 0, _, _ => none
  | fuel + 1, k, allocs =>
    match E.enet_host_service k with
    | .event ev =>
      match event_obj E allocs ev with
      | .error v => some ⟨v, [.enet_host_service host (toUint32 timeout)]⟩
      | .ok (obj, calls) =>
        (service_loop E host callback timeout fuel (k + 1) (allocs + allocsOf ev)).map
          (fun o => ⟨o.result,
            .enet_host_service host (toUint32 timeout) :: (calls ++ .JS_Call callback obj :: o.log)⟩)
    | _ => some ⟨.undefined, [.enet_host_service host (toUint32 timeout)]⟩

/-- The value of an `int` variable after an unchecked `JS_ToInt32` into it. -/
def storedInt32 : Except Int Int → Int
  | .ok n => n
  | .error n => n

/-- Model of `js_enet_host_service(ctx, this_val, argc, argv)`, run for at most
`fuel` iterations of its loop. -/
def js_enet_host_service (E : Env) (fuel : Nat) (this_val : JSValue) (argv : List JSValue) :
    Option Outcome :=
  match JS_GetOpaque this_val .enet_host_id with
  | none => some ⟨.exception .pending, []⟩
  | some host =>
    match argv with
    | [] => some ⟨.exception (.typeError "Expected a callback function as the first argument"), []⟩
    | callback :: rest =>
      if !JS_IsFunction callback then
        some ⟨.exception (.typeError "Expected a callback function as the first argument"), []⟩
      else
        let timeout : Int :=
          match rest with
          | [] => 1000
          | arg1 :: _ => storedInt32 (E.JS_ToInt32 arg1)
        service_loop E host callback timeout fuel 0 0

/-! ## `js_enet_host_connect` -/

/-- Model of `js_enet_host_connect(ctx, this_val, argc, argv)`. -/
def js_enet_host_connect (E : Env) (this_val : JSValue) (argv : List JSValue) : Outcome :=
  match JS_GetOpaque this_val .enet_host_id with
  | none => ⟨.exception .pending, []⟩
  | some host =>
    match argv with
    | arg0 :: arg1 :: _ =>
      let host_name := E.JS_ToCString arg0
      let port := storedInt32 (E.JS_ToInt32 arg1)
      let address : ENetAddress := ⟨E.enet_address_set_host host_name, toUint16 port⟩
      let log := [.enet_address_set_host host_name, .enet_host_connect host address 2 0]
      match E.enet_host_connect host address 2 0 with
      | none => ⟨.exception (.internalError "Failed to initiate connection."), log⟩
      | some peer =>
        if E.JS_NewObjectClass_fails 0 then ⟨.exception .pending, log⟩
        else ⟨.classObject .enet_peer_class_id (some peer), log⟩
    | _ => ⟨.exception (.typeError "Expected at least 2 arguments (host, port)"), []⟩

/-! ## `js_enet_host_broadcast`, `js_enet_peer_send` -/

/-- `enet_packet_create(data, dataLength, flags)`: copies `dataLength` bytes
from the memory at `data`, which holds the characters of `buf` and then the
terminating NUL. -/
def enet_packet_create (buf : List Char) (dataLength : Nat) : ENetPacket :=
  ⟨(buf ++ [NUL]).take dataLength, dataLength⟩

/-- Model of `js_enet_host_broadcast(ctx, this_val, argc, argv)`.
`JS_ToCStringLen` stores the byte length of the string in `data_len`. -/
def js_enet_host_broadcast (E : Env) (this_val : JSValue) (argv : List JSValue) : Outcome :=
  match JS_GetOpaque this_val .enet_host_id with
  | none => ⟨.exception .pending, []⟩
  | some host =>
    match argv with
    | [] => ⟨.exception (.typeError "Expected at least 1 argument (data)"), []⟩
    | arg0 :: _ =>
      match E.JS_ToCString arg0 with
      | none => ⟨.exception .pending, []⟩
      | some data =>
        let packet := enet_packet_create data data.length
        ⟨.undefined, [.enet_packet_create data data.length, .enet_host_broadcast host 0 packet]⟩

/-- Model of `js_enet_peer_send(ctx, this_val, argc, argv)`. -/
def js_enet_peer_send (E : Env) (this_val : JSValue) (argv : List JSValue) : Outcome :=
  match JS_GetOpaque this_val .enet_peer_class_id with
  | none => ⟨.exception .pending, []⟩
  | some peer =>
    match argv with
    | [] => ⟨.exception (.typeError "Expected at least 1 argument (object)"), []⟩
    | arg0 :: _ =>
      if !JS_IsObject arg0 then
        ⟨.exception (.typeError "Expected at least 1 argument (object)"), []⟩
      else
        let json_data := E.JS_JSONStringify arg0
        if JS_IsException json_data then ⟨.exception .pending, []⟩
        else
          match E.JS_ToCString json_data with
          | none => ⟨.exception .pending, []⟩
          | some data =>
            let packet := enet_packet_create data (strlen data + 1)
            let log := [.enet_packet_create data (strlen data + 1), .enet_peer_send peer 0 packet]
            if E.enet_peer_send peer 0 packet < 0 then
              ⟨.exception (.internalError "Failed to send packet."), log⟩
            else ⟨.undefined, log⟩

/-! ## `js_enet_peer_throttle_configure`, `js_enet_peer_timeout` -/

/-- The test `argc < 3 || JS_ToInt32(..argv[0]) || JS_ToInt32(..argv[1]) ||
JS_ToInt32(..argv[2])`: the three integers when it is false. -/
def threeInt32 (E : Env) (argv : List JSValue) : Option (Int × Int × Int) :=
  match argv with
  | arg0 :: arg1 :: arg2 :: _ =>
    match E.JS_ToInt32 arg0 with
    | .error _ => none
    | .ok a =>
      match E.JS_ToInt32 arg1 with
      | .error _ => none
      | .ok b =>
        match E.JS_ToInt32 arg2 with
        | .error _ => none
        | .ok c => some (a, b, c)
  | _ => none

/-- Model of `js_enet_peer_throttle_configure(ctx, this_val, argc, argv)`. -/
def js_enet_peer_throttle_configure (E : Env) (this_val : JSValue) (argv : List JSValue) :
    Outcome :=
  match JS_GetOpaque this_val .enet_peer_class_id with
  | none => ⟨.exception .pending, []⟩
  | some peer =>
    match threeInt32 E argv with
    | none =>
      ⟨.exception (.typeError
        "Expected 3 integer arguments (interval, acceleration, deceleration)"), []⟩
    | some (interval, acceleration, deceleration) =>
      ⟨.undefined, [.enet_peer_throttle_configure peer interval acceleration deceleration]⟩

/-- Model of `js_enet_peer_timeout(ctx, this_val, argc, argv)`. -/
def js_enet_peer_timeout (E : Env) (this_val : JSValue) (argv : List JSValue) : Outcome :=
  match JS_GetOpaque this_val .enet_peer_class_id with
  | none => ⟨.exception .pending, []⟩
  | some peer =>
    match threeInt32 E argv with
    | none =>
      ⟨.exception (.typeError
        "Expected 3 integer arguments (timeout_limit, timeout_min, timeout_max)"), []⟩
    | some (timeout_limit, timeout_min, timeout_max) =>
      ⟨.undefined, [.enet_peer_timeout peer timeout_limit timeout_min timeout_max]⟩

/-! ## Address forms and sample environments -/

/-- What the scan `%63[^:]:%d` needs at the head of the string `s`: a run `ip`
of 1 to 63 characters other than `:`, a `:`, optional white space `ws`, an
optional sign `sg`, and a non-empty run of digits `ds`; `rest` is not read. -/
def ScanForm (s : List Char) : Prop :=
  ∃ ip ws sg ds rest : List Char, s = ip ++ ':' :: (ws ++ (sg ++ (ds ++ rest))) ∧
    ip ≠ [] ∧ ip.length ≤ 63 ∧ ':' ∉ ip ∧ (∀ c ∈ ws, isspace c = true) ∧
    (sg = [] ∨ sg = ['+'] ∨ sg = ['-']) ∧ ds ≠ [] ∧ ∀ c ∈ ds, isdigit c = true

/-- The exact form `<ip>:<port>`: a non-empty `ip` without `:`, one `:`, a
decimal port number and nothing after it. -/
def ExactForm (s : List Char) : Prop :=
  ∃ ip ds : List Char, s = ip ++ ':' :: ds ∧ ip ≠ [] ∧ ':' ∉ ip ∧ ds ≠ [] ∧
    ∀ c ∈ ds, isdigit c = true

/-- A sample environment: strings and integers convert, the JSON codec knows
the texts `{}` and `null`, only `127.0.0.1` resolves, the transport creates
hosts and peers, and no event ever arrives. -/
def loopback : Env where
  JS_ToCString := fun v =>
    match v with
    | .string s => some s.toList
    | _ => none
  JS_ToInt32 := fun v =>
    match v with
    | .int32 n => .ok n
    | _ => .error 0
  JS_NewObjectClass_fails := fun _ => false
  JS_JSONStringify := fun v =>
    match v with
    | .object [] => .string "\x7b\x7d"
    | _ => .exception .pending
  JS_ParseJSON := fun text =>
    if text = "\x7b\x7d".toList then .object []
    else if text = "null".toList then .null
    else .exception .pending
  enet_address_set_host_ip := fun ip =>
    if ip = "127.0.0.1".toList then .ok 16777343 else .error (-1)
  enet_address_set_host := fun name =>
    if name = some "127.0.0.1".toList then some 16777343 else none
  enet_host_create := fun _ _ _ _ _ => some 1
  enet_host_service := fun _ => .nothing
  enet_host_connect := fun _ _ _ _ => some 2
  enet_peer_send := fun _ _ _ => 0

/-- The waits one call requests from the transport: the timeout arguments of
its `enet_host_service` polls, in order. -/
def waits : List Effect → List Nat
  | [] => []
  | .enet_host_service _ timeout :: log => timeout :: waits log
  | _ :: log => waits log

/-- The arguments of the callback invocations of a log, in order. -/
def callbackArgs : List Effect → List JSValue
  | [] => []
  | .JS_Call _ arg :: log => arg :: callbackArgs log
  | _ :: log => callbackArgs log

/-- The event object the `switch` of `js_enet_host_service` builds for an event
when `JS_NewObjectClass` succeeds. -/
def eventObject (E : Env) (ev : ENetEvent) : JSValue :=
  match event_obj { E with JS_NewObjectClass_fails := fun _ => false } 0 ev with
  | .ok (obj, _) => obj
  | .error v => v

/-- A transport that cannot create a host. -/
def noSockets : Env :=
  { loopback with enet_host_create := fun _ _ _ _ _ => none }

/-- A transport whose host has no free peer slot. -/
def fullHost : Env :=
  { loopback with enet_host_connect := fun _ _ _ _ => none }

/-- A transport on which every poll reports an event. -/
def flood : Env :=
  { loopback with enet_host_service := fun _ => .event (.disconnect 7) }

/-- A transport that reports three events for peer 7 (a connect, a receive of
the two bytes `{}` on channel 0, a disconnect) and then nothing. -/
def traffic : Env :=
  { loopback with
    enet_host_service := fun k =>
      if k = 0 then .event (.connect 7)
      else if k = 1 then .event (.receive 7 0 ⟨"\x7b\x7d".toList, 2⟩)
      else if k = 2 then .event (.disconnect 7)
      else .nothing }

/-- A transport that reports two received packets, the one byte `{` (not JSON)
and the four bytes `null`, and then nothing. -/
def garbageThenNull : Env :=
  { loopback with
    enet_host_service := fun k =>
      if k = 0 then .event (.receive 7 0 ⟨"\x7b".toList, 1⟩)
      else if k = 1 then .event (.receive 7 0 ⟨"null".toList, 4⟩)
      else .nothing }

/-! ## Facts about the scan -/

theorem cstr_eq_self {s : List Char} (h : NUL ∉ s) : cstr s = s := by
  unfold cstr
  induction s with
  | nil => rfl
  | cons c t ih =>
    have hc : c ≠ NUL := fun e => h (e ▸ List.mem_cons_self _ _)
    have ht : NUL ∉ t := fun m => h (List.mem_cons_of_mem _ m)
    simp [List.takeWhile_cons, hc, ih ht]

theorem takeWhile_append_stop {α : Type} (p : α → Bool) (a b : List α)
    (ha : ∀ c ∈ a, p c = true) (hb : ∀ c, b.head? = some c → p c = false) :
    (a ++ b).takeWhile p = a ∧ (a ++ b).dropWhile p = b := by
  induction a with
  | nil =>
    cases b with
    | nil => simp
    | cons x t =>
      have hx : p x = false := hb x rfl
      simp [List.takeWhile_cons, List.dropWhile_cons, hx]
  | cons x t ih =>
    have hx : p x = true := ha x (List.mem_cons_self _ _)
    have ih2 := ih (fun c hc => ha c (List.mem_cons_of_mem _ hc))
    simp [List.takeWhile_cons, List.dropWhile_cons, hx, ih2.1, ih2.2]

theorem takeWhile_append_all {α : Type} (p : α → Bool) (a b : List α)
    (ha : ∀ c ∈ a, p c = true) :
    (a ++ b).takeWhile p = a ++ b.takeWhile p := by
  induction a with
  | nil => rfl
  | cons x t ih =>
    have hx : p x = true := ha x (List.mem_cons_self _ _)
    simp [List.takeWhile_cons, hx, ih (fun c hc => ha c (List.mem_cons_of_mem _ hc))]

theorem isdigit_not_space {c : Char} (h : isdigit c = true) : isspace c = false := by
  simp only [isdigit, isspace, Bool.and_eq_true, decide_eq_true_eq, Bool.or_eq_false_iff,
    beq_eq_false_iff_ne, ne_eq, Bool.and_eq_false_iff, decide_eq_false_iff_not] at h ⊢
  omega

theorem isdigit_not_sign {c : Char} (h : isdigit c = true) : c ≠ '-' ∧ c ≠ '+' := by
  constructor <;> rintro rfl <;> simp [isdigit] at h

theorem decValue_append (a : List Char) (c : Char) :
    decValue (a ++ [c]) = 10 * decValue a + (c.toNat - 48) := by
  simp [decValue, List.foldl_append]

theorem digitChar_toNat {m : Nat} (h : m < 10) : (Nat.digitChar m).toNat = 48 + m := by
  interval_cases m <;> rfl

/-- Reading the output of `Nat.toDigitsCore 10` back from 0 is reading the
accumulator back from `n`. -/
theorem foldl_toDigitsCore (fuel : Nat) (n : Nat) (acc : List Char) (hfuel : n < fuel) :
    (Nat.toDigitsCore 10 fuel n acc).foldl (fun v c => 10 * v + (c.toNat - 48)) 0 =
      acc.foldl (fun v c => 10 * v + (c.toNat - 48)) n := by
  induction fuel generalizing n acc with
  | zero => omega
  | succ k ih =>
    have hd : (Nat.digitChar (n % 10)).toNat - 48 = n % 10 := by
      rw [digitChar_toNat (Nat.mod_lt _ (by omega))]
      omega
    rw [Nat.toDigitsCore]
    by_cases h0 : n / 10 = 0
    · have hsmall : n % 10 = n := Nat.mod_eq_of_lt (by omega)
      simp only [h0, if_true, List.foldl_cons, Nat.mul_zero, Nat.zero_add]
      rw [hd, hsmall]
    · have hstep : 10 * (n / 10) + n % 10 = n := Nat.div_add_mod n 10
      simp only [h0, if_false]
      rw [ih (n / 10) _ (by omega), List.foldl_cons, hd, hstep]

/-- Every character `Nat.toDigitsCore 10` adds to the accumulator is a digit. -/
theorem mem_toDigitsCore (fuel : Nat) (n : Nat) (acc : List Char) (c : Char)
    (hc : c ∈ Nat.toDigitsCore 10 fuel n acc) : c ∈ acc ∨ isdigit c = true := by
  induction fuel generalizing n acc with
  | zero => exact Or.inl hc
  | succ k ih =>
    have hdig : isdigit (Nat.digitChar (n % 10)) = true := by
      simp only [isdigit, digitChar_toNat (Nat.mod_lt n (by omega : 0 < 10)), Bool.and_eq_true,
        decide_eq_true_eq]
      omega
    rw [Nat.toDigitsCore] at hc
    have hcons : c ∈ Nat.digitChar (n % 10) :: acc → c ∈ acc ∨ isdigit c = true := by
      intro hm
      rcases List.mem_cons.mp hm with e | hm
      · exact Or.inr (e ▸ hdig)
      · exact Or.inl hm
    by_cases h0 : n / 10 = 0
    · simp only [h0, if_true] at hc
      exact hcons hc
    · simp only [h0, if_false] at hc
      rcases ih _ _ hc with hm | hm
      · exact hcons hm
      · exact Or.inr hm

/-- With fuel left, or something accumulated, `Nat.toDigitsCore` is not empty. -/
theorem toDigitsCore_ne_nil (fuel : Nat) (n : Nat) (acc : List Char)
    (h : 0 < fuel ∨ acc ≠ []) : Nat.toDigitsCore 10 fuel n acc ≠ [] := by
  induction fuel generalizing n acc with
  | zero =>
    rcases h with h | h
    · omega
    · exact h
  | succ k ih =>
    rw [Nat.toDigitsCore]
    by_cases h0 : n / 10 = 0
    · simp [h0]
    · simp only [h0, if_false]
      exact ih _ _ (Or.inr (by simp))

/-- The decimal text of `n`, as `Nat.repr` writes it. -/
theorem repr_digits (n : Nat) :
    (Nat.repr n).toList ≠ [] ∧ (∀ c ∈ (Nat.repr n).toList, isdigit c = true) ∧
      decValue (Nat.repr n).toList = n := by
  have hrepr : (Nat.repr n).toList = Nat.toDigitsCore 10 (n + 1) n [] := rfl
  rw [hrepr]
  refine ⟨toDigitsCore_ne_nil _ _ _ (Or.inl (by omega)), ?_, ?_⟩
  · intro c hc
    rcases mem_toDigitsCore _ _ _ c hc with hm | hm
    · simp at hm
    · exact hm
  · exact foldl_toDigitsCore (n + 1) n [] (by omega)

theorem scanSet63_prefix (ip rest : List Char) (h63 : ip.length ≤ 63) (hcolon : ':' ∉ ip) :
    scanSet63 (ip ++ ':' :: rest) = ip := by
  unfold scanSet63
  have h := (takeWhile_append_stop (fun c => c != ':') ip (':' :: rest)
    (fun c hc => by
      simp only [bne_iff_ne, ne_eq]
      rintro rfl; exact hcolon hc)
    (fun c hc => by
      simp only [List.head?_cons, Option.some.injEq] at hc
      subst hc; rfl)).1
  rw [h]
  exact List.take_of_length_le h63

theorem scanSign_of_sign (sg ds rest : List Char) (hsg : sg = [] ∨ sg = ['+'] ∨ sg = ['-'])
    (hne : ds ≠ []) (hds : ∀ c ∈ ds, isdigit c = true) :
    scanSign (sg ++ (ds ++ rest)) = (decide (sg = ['-']), ds ++ rest) := by
  cases ds with
  | nil => exact absurd rfl hne
  | cons d t =>
    have hd := isdigit_not_sign (hds d (List.mem_cons_self _ _))
    rcases hsg with rfl | rfl | rfl
    · simp [scanSign, hd.1, hd.2]
    · simp [scanSign]
    · simp [scanSign]

/-- The directive `%d` on white space, a sign and digits. -/
theorem scan_d_accepts (ws sg ds rest : List Char) (hws : ∀ c ∈ ws, isspace c = true)
    (hsg : sg = [] ∨ sg = ['+'] ∨ sg = ['-']) (hne : ds ≠ [])
    (hds : ∀ c ∈ ds, isdigit c = true) :
    scan_d (ws ++ (sg ++ (ds ++ rest))) =
      some (wrapInt32 (if sg = ['-'] then -(decValue (ds ++ rest.takeWhile isdigit) : Int)
        else (decValue (ds ++ rest.takeWhile isdigit) : Int))) := by
  have hdrop : (ws ++ (sg ++ (ds ++ rest))).dropWhile isspace = sg ++ (ds ++ rest) := by
    refine (takeWhile_append_stop isspace ws _ hws ?_).2
    intro c hc
    cases ds with
    | nil => exact absurd rfl hne
    | cons d t =>
      rcases hsg with rfl | rfl | rfl
      · simp only [List.nil_append, List.cons_append, List.head?_cons, Option.some.injEq] at hc
        subst hc
        exact isdigit_not_space (hds _ (List.mem_cons_self _ _))
      · simp only [List.cons_append, List.head?_cons, Option.some.injEq] at hc
        subst hc; rfl
      · simp only [List.cons_append, List.head?_cons, Option.some.injEq] at hc
        subst hc; rfl
  have htake : (ds ++ rest).takeWhile isdigit = ds ++ rest.takeWhile isdigit :=
    takeWhile_append_all isdigit ds rest hds
  have hnonempty : (ds ++ rest.takeWhile isdigit).isEmpty = false := by
    cases ds with
    | nil => exact absurd rfl hne
    | cons d t => rfl
  unfold scan_d
  simp only [hdrop, scanSign_of_sign sg ds rest hsg hne hds, htake, hnonempty,
    Bool.false_eq_true, if_false, decide_eq_true_eq]

/-- Completeness of the scan: a string of the form `ScanForm` describes converts
both fields, to the run before the colon and the value of the digits. -/
theorem sscanf_accepts (s ip ws sg ds rest : List Char)
    (hs : cstr s = ip ++ ':' :: (ws ++ (sg ++ (ds ++ rest))))
    (hip : ip ≠ []) (h63 : ip.length ≤ 63) (hcolon : ':' ∉ ip)
    (hws : ∀ c ∈ ws, isspace c = true) (hsg : sg = [] ∨ sg = ['+'] ∨ sg = ['-'])
    (hne : ds ≠ []) (hds : ∀ c ∈ ds, isdigit c = true) :
    sscanf_ip_port s = .two ip
      (wrapInt32 (if sg = ['-'] then -(decValue (ds ++ rest.takeWhile isdigit) : Int)
        else (decValue (ds ++ rest.takeWhile isdigit) : Int))) := by
  unfold sscanf_ip_port
  simp only [hs, scanSet63_prefix ip _ h63 hcolon, List.drop_left]
  cases ip with
  | nil => exact absurd rfl hip
  | cons a t =>
    simp [scan_d_accepts ws sg ds rest hws hsg hne hds]

theorem scanSet63_facts (s : List Char) :
    scanSet63 s = s.take (scanSet63 s).length ∧ (scanSet63 s).length ≤ 63 ∧
      ':' ∉ scanSet63 s := by
  refine ⟨?_, ?_, ?_⟩
  · have hpre : scanSet63 s <+: s :=
      (List.take_prefix 63 _).trans (List.takeWhile_prefix _)
    exact List.prefix_iff_eq_take.mp hpre
  · exact (List.length_take_le 63 _)
  · intro hmem
    have h1 : ':' ∈ s.takeWhile (fun c => c != ':') := List.mem_of_mem_take hmem
    have h2 := List.mem_takeWhile_imp h1
    simp at h2

/-- The directive `%d` succeeds only on white space, a sign and digits. -/
theorem scan_d_form (s : List Char) (port : Int) (h : scan_d s = some port) :
    ∃ ws sg ds rest : List Char, s = ws ++ (sg ++ (ds ++ rest)) ∧
      (∀ c ∈ ws, isspace c = true) ∧ (sg = [] ∨ sg = ['+'] ∨ sg = ['-']) ∧ ds ≠ [] ∧
      ∀ c ∈ ds, isdigit c = true := by
  unfold scan_d at h
  simp only at h
  split at h
  · exact absurd h (by simp)
  · rename_i hds
    have hsplit : ∃ sg : List Char, (sg = [] ∨ sg = ['+'] ∨ sg = ['-']) ∧
        s.dropWhile isspace = sg ++ (scanSign (s.dropWhile isspace)).2 := by
      cases hx : s.dropWhile isspace with
      | nil => exact ⟨[], Or.inl rfl, rfl⟩
      | cons c t =>
        by_cases hm : c = '-'
        · exact ⟨['-'], Or.inr (Or.inr rfl), by simp [scanSign, hm]⟩
        · by_cases hpl : c = '+'
          · exact ⟨['+'], Or.inr (Or.inl rfl), by simp [scanSign, hpl]⟩
          · exact ⟨[], Or.inl rfl, by simp [scanSign, hm, hpl]⟩
    obtain ⟨sg, hsg, hx⟩ := hsplit
    refine ⟨s.takeWhile isspace, sg, (scanSign (s.dropWhile isspace)).2.takeWhile isdigit,
      (scanSign (s.dropWhile isspace)).2.dropWhile isdigit, ?_, ?_, hsg, ?_, ?_⟩
    · rw [List.takeWhile_append_dropWhile, ← hx, List.takeWhile_append_dropWhile]
    · intro c hc
      exact List.mem_takeWhile_imp hc
    · intro hnil
      rw [hnil] at hds
      exact hds rfl
    · intro c hc
      exact List.mem_takeWhile_imp hc

/-- Soundness of the scan: both fields are converted only for a string that
starts as `ScanForm` describes, and the first field is the run before the colon. -/
theorem sscanf_two_form (s ip : List Char) (port : Int) (h : sscanf_ip_port s = .two ip port) :
    ∃ ws sg ds rest : List Char, cstr s = ip ++ ':' :: (ws ++ (sg ++ (ds ++ rest))) ∧
      ip ≠ [] ∧ ip.length ≤ 63 ∧ ':' ∉ ip ∧ (∀ c ∈ ws, isspace c = true) ∧
      (sg = [] ∨ sg = ['+'] ∨ sg = ['-']) ∧ ds ≠ [] ∧ ∀ c ∈ ds, isdigit c = true := by
  unfold sscanf_ip_port at h
  simp only at h
  obtain ⟨hpre, hlen, hnc⟩ := scanSet63_facts (cstr s)
  split at h
  · exact absurd h (by simp)
  · split at h
    · exact absurd h (by simp)
    · rename_i hrun
      split at h
      · rename_i c rest1 hdrop
        split at h
        · rename_i hc
          cases hd : scan_d rest1 with
          | none => rw [hd] at h; exact absurd h (by simp)
          | some v =>
            rw [hd] at h
            simp only [Scan.two.injEq] at h
            obtain ⟨ws, sg, ds, rest, e, hws, hsg, hne, hds⟩ := scan_d_form rest1 v hd
            refine ⟨ws, sg, ds, rest, ?_, ?_, ?_, ?_, hws, hsg, hne, hds⟩
            · rw [← h.1, ← e, ← hc, ← hdrop]
              conv_lhs => rw [← List.take_append_drop (scanSet63 (cstr s)).length (cstr s)]
              rw [← hpre]
            · rw [← h.1]
              intro hnil
              rw [hnil] at hrun
              exact hrun rfl
            · rw [← h.1]; exact hlen
            · rw [← h.1]; exact hnc
        · exact absurd h (by simp)
      · exact absurd h (by simp)

/-- A string the scan does not convert in full is answered with the type
error, before any effect. -/
theorem host_create_rejects (E : Env) (arg0 : JSValue) (rest : List JSValue) (s : List Char)
    (harg : E.JS_ToCString arg0 = some s) (hscan : ∀ ip port, sscanf_ip_port s ≠ .two ip port) :
    js_enet_host_create E (arg0 :: rest) =
      ⟨.exception (.typeError "Invalid address format. Expected format: 'ip:port'"), []⟩ := by
  unfold js_enet_host_create
  simp only [harg]

/-- The transport calls of `js_enet_host_create` once both fields are converted. -/
theorem host_create_hands_over (E : Env) (arg0 : JSValue) (rest : List JSValue)
    (s ip : List Char) (port : Int)
    (harg : E.JS_ToCString arg0 = some s) (hscan : sscanf_ip_port s = .two ip port) :
    (js_enet_host_create E (arg0 :: rest)).log[0]? = some (.enet_address_set_host_ip ip) ∧
    ∀ h, E.enet_address_set_host_ip ip = .ok h →
      (js_enet_host_create E (arg0 :: rest)).log[1]? =
        some (.enet_host_create (some ⟨some h, toUint16 port⟩) 32 2 0 0) := by
  unfold js_enet_host_create
  simp only [harg, hscan]
  constructor
  · cases hr : E.enet_address_set_host_ip ip with
    | error e => rfl
    | ok h =>
      simp only
      cases hc : E.enet_host_create (some ⟨some h, toUint16 port⟩) 32 2 0 0 with
      | none => rfl
      | some host =>
        simp only [host_create_RET]
        split <;> rfl
  · intro h hr
    simp only [hr]
    cases hc : E.enet_host_create (some ⟨some h, toUint16 port⟩) 32 2 0 0 with
    | none => rfl
    | some host =>
      simp only [host_create_RET]
      split <;> rfl

theorem wrapInt32_of_fits (x : Int) (h : -2147483648 ≤ x ∧ x ≤ 2147483647) :
    wrapInt32 x = x := by
  unfold wrapInt32
  omega

/-- The scan of `ip:<sign><decimal text of n>`. -/
theorem sscanf_decimal (ip sg : List Char) (n : Nat)
    (hne : 1 ≤ ip.length) (h63 : ip.length ≤ 63) (hcolon : ':' ∉ ip) (hnul : NUL ∉ ip)
    (hsg : sg = [] ∨ sg = ['+'] ∨ sg = ['-']) :
    sscanf_ip_port (ip ++ ':' :: (sg ++ (Nat.repr n).toList)) =
      .two ip (wrapInt32 (if sg = ['-'] then -(n : Int) else (n : Int))) := by
  obtain ⟨hdne, hdall, hdval⟩ := repr_digits n
  have hclean : cstr (ip ++ ':' :: (sg ++ (Nat.repr n).toList)) =
      ip ++ ':' :: ([] ++ (sg ++ ((Nat.repr n).toList ++ []))) := by
    rw [cstr_eq_self]
    · simp
    · intro hmem
      simp only [List.mem_append, List.mem_cons] at hmem
      rcases hmem with h | h | h | h
      · exact hnul h
      · exact absurd h (by decide)
      · rcases hsg with rfl | rfl | rfl
        · simp at h
        · simp only [List.mem_singleton] at h
          exact absurd h (by decide)
        · simp only [List.mem_singleton] at h
          exact absurd h (by decide)
      · have := hdall _ h
        exact absurd this (by decide)
  have hip : ip ≠ [] := by
    intro e
    rw [e] at hne
    simp at hne
  have h := sscanf_accepts _ ip [] sg (Nat.repr n).toList [] hclean hip h63 hcolon
    (by simp) hsg hdne hdall
  simp only [List.takeWhile_nil, List.append_nil, hdval] at h
  exact h

/-- The scan returns 2 exactly when it leaves both fields behind. -/
theorem count_eq_two_iff (r : Scan) : r.count = 2 ↔ ∃ ip port, r = .two ip port := by
  cases r with
  | eof => simp [Scan.count]
  | zero => simp [Scan.count]
  | one ip => simp [Scan.count]
  | two ip port => simp [Scan.count]

/-- The form `ScanForm` is exactly what the scan converts in full. -/
theorem scanForm_iff_count (s : List Char) :
    ScanForm (cstr s) ↔ (sscanf_ip_port s).count = 2 := by
  rw [count_eq_two_iff]
  constructor
  · rintro ⟨ip, ws, sg, ds, rest, hs, h1, h2, h3, h4, h5, h6, h7⟩
    exact ⟨ip, _, sscanf_accepts s ip ws sg ds rest hs h1 h2 h3 h4 h5 h6 h7⟩
  · rintro ⟨ip, port, hscan⟩
    obtain ⟨ws, sg, ds, rest1, e, h1, h2, h3, h4, h5, h6, h7⟩ := sscanf_two_form s ip port hscan
    exact ⟨ip, ws, sg, ds, rest1, e, h1, h2, h3, h4, h5, h6, h7⟩

/-- C2 as stated fails: `"127.0.0.1:9999xyz"` is not of the exact form
`<ip>:<port>` (characters follow the port), yet `js_enet_host_create` raises no
error for it: it resolves the ip, creates the host on port 9999 and returns a
host object. -/
theorem create_host_accepts_trailing_characters :
    ¬ ExactForm "127.0.0.1:9999xyz".toList ∧
    js_enet_host_create loopback [.string "127.0.0.1:9999xyz"] =
      ⟨.classObject .enet_host_id (some 1),
        [.enet_address_set_host_ip "127.0.0.1".toList,
         .enet_host_create (some ⟨some 16777343, 9999⟩) 32 2 0 0]⟩ := by
  refine ⟨?_, rfl⟩
  rintro ⟨ip, ds, hs, -, hcolon, -, hds⟩
  have hdrop := (takeWhile_append_stop (fun c => c != ':') ip (':' :: ds)
    (fun c hc => by
      simp only [bne_iff_ne, ne_eq]
      rintro rfl; exact hcolon hc)
    (fun c hc => by
      simp only [List.head?_cons, Option.some.injEq] at hc
      subst hc; rfl)).2
  rw [← hs] at hdrop
  have hds2 : ds = "9999xyz".toList := by
    have h2 : ":9999xyz".toList = ':' :: ds := hdrop
    exact (List.cons.inj h2).2.symm
  have hx := hds 'x' (by rw [hds2]; decide)
  exact absurd hx (by decide)

/-- C2, amended. For every address string that does not begin as the scan
`%63[^:]:%d` requires (a run of 1 to 63 characters other than `:`, a `:`,
optional white space, an optional sign and at least one decimal digit),
`js_enet_host_create` raises the address-format error, performs no transport
call and returns no host object.  What follows the digits is not examined. -/
theorem create_host_rejects_malformed (E : Env) (arg0 : JSValue) (rest : List JSValue)
    (s : List Char) (harg : E.JS_ToCString arg0 = some s) (hbad : ¬ ScanForm (cstr s)) :
    js_enet_host_create E (arg0 :: rest) =
      ⟨.exception (.typeError "Invalid address format. Expected format: 'ip:port'"), []⟩ := by
  apply host_create_rejects E arg0 rest s harg
  intro ip port hscan
  obtain ⟨ws, sg, ds, rest1, e, h1, h2, h3, h4, h5, h6, h7⟩ := sscanf_two_form s ip port hscan
  exact hbad ⟨ip, ws, sg, ds, rest1, e, h1, h2, h3, h4, h5, h6, h7⟩

/-- Witness of C2, amended: `"bad-address"` (no `:`), `":9999"` (an empty
ip) and `"127.0.0.1:"` (no port) are rejected with no transport call. -/
theorem create_host_rejects_malformed_witness :
    js_enet_host_create loopback [.string "bad-address"] =
      ⟨.exception (.typeError "Invalid address format. Expected format: 'ip:port'"), []⟩ ∧
    js_enet_host_create loopback [.string ":9999"] =
      ⟨.exception (.typeError "Invalid address format. Expected format: 'ip:port'"), []⟩ ∧
    js_enet_host_create loopback [.string "127.0.0.1:"] =
      ⟨.exception (.typeError "Invalid address format. Expected format: 'ip:port'"), []⟩ :=
  ⟨create_host_rejects_malformed loopback (.string "bad-address") [] "bad-address".toList rfl
      (fun hform => absurd ((scanForm_iff_count _).mp hform) (by decide)),
    create_host_rejects_malformed loopback (.string ":9999") [] ":9999".toList rfl
      (fun hform => absurd ((scanForm_iff_count _).mp hform) (by decide)),
    create_host_rejects_malformed loopback (.string "127.0.0.1:") [] "127.0.0.1:".toList rfl
      (fun hform => absurd ((scanForm_iff_count _).mp hform) (by decide))⟩

/-- C10. For every address string `ip:p` whose port text is an optional sign
followed by the decimal text of `n`, with value `p` within the range of a
32-bit `int`, the scan succeeds with port `p` (no range check is made), the
port handed to `enet_host_create` in the 16-bit port field is `p mod 2^16`, and
that equals the written port exactly when `0 ≤ p ≤ 65535`. -/
theorem create_host_port_mod_65536 (E : Env) (arg0 : JSValue) (rest : List JSValue)
    (ip sg : List Char) (n : Nat) (p : Int)
    (hne : 1 ≤ ip.length) (h63 : ip.length ≤ 63) (hcolon : ':' ∉ ip) (hnul : NUL ∉ ip)
    (hsg : sg = [] ∨ sg = ['+'] ∨ sg = ['-'])
    (hp : p = if sg = ['-'] then -(n : Int) else (n : Int))
    (hfits : -2147483648 ≤ p ∧ p ≤ 2147483647)
    (harg : E.JS_ToCString arg0 = some (ip ++ ':' :: (sg ++ (Nat.repr n).toList))) :
    sscanf_ip_port (ip ++ ':' :: (sg ++ (Nat.repr n).toList)) = .two ip p ∧
    (∀ h, E.enet_address_set_host_ip ip = .ok h →
      (js_enet_host_create E (arg0 :: rest)).log[1]? =
        some (.enet_host_create (some ⟨some h, (p % 65536).toNat⟩) 32 2 0 0)) ∧
    ((((p % 65536).toNat : Nat) : Int) = p ↔ 0 ≤ p ∧ p ≤ 65535) := by
  have hscan : sscanf_ip_port (ip ++ ':' :: (sg ++ (Nat.repr n).toList)) = .two ip p := by
    have h := sscanf_decimal ip sg n hne h63 hcolon hnul hsg
    rw [← hp, wrapInt32_of_fits p hfits] at h
    exact h
  refine ⟨hscan, (host_create_hands_over E arg0 rest _ ip p harg hscan).2, ?_⟩
  omega

/-- Witness of C10: `"127.0.0.1:-1"` binds port 65535 and `"127.0.0.1:65536"`
binds port 0. -/
theorem create_host_port_mod_65536_witness :
    (sscanf_ip_port "127.0.0.1:-1".toList = .two "127.0.0.1".toList (-1) ∧
      (js_enet_host_create loopback [.string "127.0.0.1:-1"]).log[1]? =
        some (.enet_host_create (some ⟨some 16777343, 65535⟩) 32 2 0 0)) ∧
    (sscanf_ip_port "127.0.0.1:65536".toList = .two "127.0.0.1".toList 65536 ∧
      (js_enet_host_create loopback [.string "127.0.0.1:65536"]).log[1]? =
        some (.enet_host_create (some ⟨some 16777343, 0⟩) 32 2 0 0)) :=
  have h1 := create_host_port_mod_65536 loopback (.string "127.0.0.1:-1") []
    "127.0.0.1".toList ['-'] 1 (-1)
    (by decide) (by decide) (by decide) (by decide) (by decide) (by decide) (by decide) rfl
  have h2 := create_host_port_mod_65536 loopback (.string "127.0.0.1:65536") []
    "127.0.0.1".toList [] 65536 65536
    (by decide) (by decide) (by decide) (by decide) (by decide) (by decide) (by decide) rfl
  ⟨⟨h1.1, h1.2.1 16777343 rfl⟩, ⟨h2.1, h2.2.1 16777343 rfl⟩⟩

/-! ## Facts about the service loop -/

theorem waits_append (a b : List Effect) : waits (a ++ b) = waits a ++ waits b := by
  induction a with
  | nil => rfl
  | cons x t ih => cases x <;> simp [waits, ih]

theorem callbackArgs_append (a b : List Effect) :
    callbackArgs (a ++ b) = callbackArgs a ++ callbackArgs b := by
  induction a with
  | nil => rfl
  | cons x t ih => cases x <;> simp [callbackArgs, ih]

/-- The transport calls made while an event object is built hold no poll and
no callback invocation. -/
theorem event_obj_calls (E : Env) (a : Nat) (ev : ENetEvent) (obj : JSValue)
    (calls : List Effect) (h : event_obj E a ev = .ok (obj, calls)) :
    waits calls = [] ∧ callbackArgs calls = [] := by
  cases ev with
  | connect peer =>
    simp only [event_obj] at h
    split at h
    · exact absurd h (by simp)
    · simp only [Except.ok.injEq, Prod.mk.injEq] at h
      rw [← h.2]; exact ⟨rfl, rfl⟩
  | receive peer ch packet =>
    simp only [event_obj, Except.ok.injEq, Prod.mk.injEq] at h
    rw [← h.2]; exact ⟨rfl, rfl⟩
  | disconnect peer =>
    simp only [event_obj, Except.ok.injEq, Prod.mk.injEq] at h
    rw [← h.2]; exact ⟨rfl, rfl⟩

/-- When the allocation succeeds the object built is `eventObject`. -/
theorem event_obj_ok (E : Env) (a : Nat) (ev : ENetEvent)
    (hok : E.JS_NewObjectClass_fails a = false) :
    ∃ calls, event_obj E a ev = .ok (eventObject E ev, calls) := by
  cases ev with
  | connect peer => exact ⟨[], by simp [event_obj, eventObject, hok]⟩
  | receive peer ch packet => exact ⟨[.enet_packet_destroy packet], rfl⟩
  | disconnect peer => exact ⟨[], rfl⟩

/-- One run of the loop: when the polls from the `k`-th on report the events
`es` and then no event, `es.length + 1` iterations of fuel suffice; every wait
requested is the timeout; and when no allocation fails the run makes
`es.length + 1` polls and hands the callback the objects of `es` in order. -/
theorem service_loop_run (E : Env) (host : Nat) (callback : JSValue) (timeout : Int) :
    ∀ (es : List ENetEvent) (k a fuel : Nat),
      (∀ i e, es[i]? = some e → E.enet_host_service (k + i) = .event e) →
      (∀ e, E.enet_host_service (k + es.length) ≠ .event e) →
      es.length < fuel →
      ∃ o, service_loop E host callback timeout fuel k a = some o ∧
        (∀ w ∈ waits o.log, w = toUint32 timeout) ∧
        ((∀ j, E.JS_NewObjectClass_fails j = false) →
          o.result = .undefined ∧
          waits o.log = List.replicate (es.length + 1) (toUint32 timeout) ∧
          callbackArgs o.log = es.map (eventObject E)) := by
  intro es
  induction es with
  | nil =>
    intro k a fuel _ hend hfuel
    obtain ⟨f, rfl⟩ : ∃ f, fuel = f + 1 := ⟨fuel - 1, by omega⟩
    refine ⟨⟨.undefined, [.enet_host_service host (toUint32 timeout)]⟩, ?_, ?_, ?_⟩
    · unfold service_loop
      cases hp : E.enet_host_service k with
      | event e => exact absurd hp (by simpa using hend e)
      | nothing => rfl
      | failure => rfl
    · intro w hw
      simpa [waits] using hw
    · intro _
      exact ⟨rfl, rfl, rfl⟩
  | cons e es ih =>
    intro k a fuel hpolls hend hfuel
    obtain ⟨f, rfl⟩ : ∃ f, fuel = f + 1 := ⟨fuel - 1, by omega⟩
    have hp : E.enet_host_service k = .event e := by
      simpa using hpolls 0 e (by simp)
    unfold service_loop
    simp only [hp]
    cases hobj : event_obj E a e with
    | error v =>
      refine ⟨⟨v, [.enet_host_service host (toUint32 timeout)]⟩, rfl, ?_, ?_⟩
      · intro w hw
        simpa [waits] using hw
      · intro hok
        obtain ⟨calls, hc⟩ := event_obj_ok E a e (hok a)
        rw [hc] at hobj
        exact absurd hobj (by simp)
    | ok r =>
      obtain ⟨obj, calls⟩ := r
      obtain ⟨hw0, hc0⟩ := event_obj_calls E a e obj calls hobj
      obtain ⟨o, ho, hall, hexact⟩ := ih (k + 1) (a + allocsOf e) f
        (fun i e2 hi => by
          have := hpolls (i + 1) e2 (by simpa using hi)
          rw [← this]; congr 1; omega)
        (fun e2 => by
          have := hend e2
          rw [show k + 1 + es.length = k + (e :: es).length by simp; omega]
          exact this)
        (by simp at hfuel; omega)
      simp only [ho, Option.map_some']
      refine ⟨_, rfl, ?_, ?_⟩
      · intro w hw
        simp only [waits, List.mem_cons, waits_append, hw0, List.nil_append] at hw
        rcases hw with hw | hw
        · exact hw
        · exact hall w hw
      · intro hok
        obtain ⟨hres, hwaits, hargs⟩ := hexact hok
        obtain ⟨calls2, hc2⟩ := event_obj_ok E a e (hok a)
        rw [hc2] at hobj
        simp only [Except.ok.injEq, Prod.mk.injEq] at hobj
        refine ⟨hres, ?_, ?_⟩
        · simp only [waits, waits_append, hw0, List.nil_append, hwaits, List.length_cons]
          rfl
        · simp only [callbackArgs, callbackArgs_append, hc0, List.nil_append, hargs,
            List.map_cons, hobj.1]

/-- On a transport that reports an event on every poll the loop never ends. -/
theorem service_loop_flood (host : Nat) (callback : JSValue) (timeout : Int) :
    ∀ fuel k a, service_loop flood host callback timeout fuel k a = none := by
  intro fuel
  induction fuel with
  | zero => intro k a; rfl
  | succ f ih =>
    intro k a
    have hp : flood.enet_host_service k = .event (.disconnect 7) := rfl
    unfold service_loop
    simp only [hp, event_obj, ih, Option.map_none']

/-- The packet `js_enet_peer_send` copies out of the string buffer: the
characters of the C string and the terminating NUL after them. -/
theorem take_strlen_succ (text : List Char) :
    (text ++ [NUL]).take (strlen text + 1) = cstr text ++ [NUL] := by
  unfold strlen cstr
  induction text with
  | nil => rfl
  | cons c t ih =>
    by_cases hc : c = NUL
    · simp [List.takeWhile_cons, hc]
    · simp only [List.takeWhile_cons, bne_iff_ne, ne_eq, hc, not_false_eq_true, decide_True,
        if_true, List.length_cons, List.cons_append, List.take_succ_cons, ih]

/-! ## The claims about host creation -/

/-- C3 fails on the path without an argument: when the transport creates no
host and the object allocation succeeds, `js_enet_host_create()` raises nothing
and returns a host object whose native pointer is `NULL`. -/
theorem create_host_unbound_wraps_null (E : Env)
    (hfail : E.enet_host_create none 32 2 0 0 = none)
    (halloc : E.JS_NewObjectClass_fails 0 = false) :
    js_enet_host_create E [] =
      ⟨.classObject .enet_host_id none, [.enet_host_create none 32 2 0 0]⟩ := by
  simp [js_enet_host_create, host_create_RET, hfail, halloc]

/-- Evaluation of C3 on a transport that cannot create a host: the call without
an argument returns an object around `NULL`, while the call with a bind address
raises the internal error. -/
theorem create_host_unbound_wraps_null_witness :
    js_enet_host_create noSockets [] =
      ⟨.classObject .enet_host_id none, [.enet_host_create none 32 2 0 0]⟩ ∧
    js_enet_host_create noSockets [.string "127.0.0.1:9999"] =
      ⟨.exception (.internalError "Failed to create ENet host."),
        [.enet_address_set_host_ip "127.0.0.1".toList,
         .enet_host_create (some ⟨some 16777343, 9999⟩) 32 2 0 0]⟩ :=
  ⟨create_host_unbound_wraps_null noSockets rfl rfl, rfl⟩

/-- C9. Every host is created with a peer limit of 32, and on a host for which
the transport's connect returns no peer, `js_enet_host_connect` returns an
exception, never a peer object; with both arguments present the exception is
the internal error "Failed to initiate connection.". -/
theorem connect_without_free_slot (E : Env) (h : Nat) (argv : List JSValue)
    (hfull : ∀ address channels data, E.enet_host_connect h address channels data = none) :
    (∀ argv0 address n c i o,
      Effect.enet_host_create address n c i o ∈ (js_enet_host_create E argv0).log → n = 32) ∧
    JS_IsException (js_enet_host_connect E (.classObject .enet_host_id (some h)) argv).result
      = true ∧
    (∀ cls handle,
      (js_enet_host_connect E (.classObject .enet_host_id (some h)) argv).result ≠
        .classObject cls handle) ∧
    (∀ arg0 arg1 rest, argv = arg0 :: arg1 :: rest →
      (js_enet_host_connect E (.classObject .enet_host_id (some h)) argv).result =
        .exception (.internalError "Failed to initiate connection.")) := by
  have hres : ∀ arg0 arg1 rest,
      (js_enet_host_connect E (.classObject .enet_host_id (some h)) (arg0 :: arg1 :: rest)).result
        = .exception (.internalError "Failed to initiate connection.") := by
    intro arg0 arg1 rest
    simp [js_enet_host_connect, JS_GetOpaque, hfull]
  have hexc : ∃ err,
      (js_enet_host_connect E (.classObject .enet_host_id (some h)) argv).result
        = .exception err := by
    match argv with
    | [] => exact ⟨_, rfl⟩
    | [_] => exact ⟨_, rfl⟩
    | arg0 :: arg1 :: rest => exact ⟨_, hres arg0 arg1 rest⟩
  obtain ⟨err, herr⟩ := hexc
  refine ⟨?_, ?_, ?_, ?_⟩
  · intro argv0 address n c i o hmem
    unfold js_enet_host_create at hmem
    split at hmem
    · simp only [host_create_RET] at hmem
      split at hmem <;> simp at hmem <;> exact hmem.2.1
    · split at hmem
      · simp at hmem
      · split at hmem
        · split at hmem
          · simp at hmem
          · simp only at hmem
            split at hmem
            · simp at hmem
              exact hmem.2.1
            · simp only [host_create_RET] at hmem
              split at hmem <;> simp at hmem <;> exact hmem.2.1
        · simp at hmem
  · rw [herr]; rfl
  · intro cls handle
    rw [herr]
    exact fun e => nomatch e
  · intro arg0 arg1 rest e
    rw [e]
    exact hres arg0 arg1 rest

/-- Witness of C9: a connect on a full host. -/
theorem connect_without_free_slot_witness :
    (∀ argv0 address n c i o,
      Effect.enet_host_create address n c i o ∈ (js_enet_host_create fullHost argv0).log →
        n = 32) ∧
    JS_IsException (js_enet_host_connect fullHost (.classObject .enet_host_id (some 1))
      [.string "127.0.0.1", .int32 9999]).result = true ∧
    (∀ cls handle,
      (js_enet_host_connect fullHost (.classObject .enet_host_id (some 1))
        [.string "127.0.0.1", .int32 9999]).result ≠ .classObject cls handle) ∧
    (∀ arg0 arg1 rest, [JSValue.string "127.0.0.1", JSValue.int32 9999] = arg0 :: arg1 :: rest →
      (js_enet_host_connect fullHost (.classObject .enet_host_id (some 1))
        [.string "127.0.0.1", .int32 9999]).result =
        .exception (.internalError "Failed to initiate connection.")) :=
  connect_without_free_slot fullHost 1 [.string "127.0.0.1", .int32 9999] (fun _ _ _ => rfl)

/-! ## The claims about `service` -/

/-- C4 as stated fails: with a timeout of 1000, on a transport that reports an
event on every poll the call never returns, and on a transport that reports
three events and then nothing it returns after four polls, each asked to wait
1000, 4000 in all. -/
theorem service_waits_exceed_timeout :
    (∀ fuel, js_enet_host_service flood fuel (.classObject .enet_host_id (some 1))
      [.function 0, .int32 1000] = none) ∧
    ∃ o, js_enet_host_service traffic 4 (.classObject .enet_host_id (some 1))
      [.function 0, .int32 1000] = some o ∧
      waits o.log = [1000, 1000, 1000, 1000] ∧ 1000 < (waits o.log).sum := by
  refine ⟨?_, ⟨_, rfl, rfl, by decide⟩⟩
  intro fuel
  exact service_loop_flood 1 (.function 0) 1000 fuel 0 0

/-- C4, amended. For every timeout `t` and every transport behaviour in which
the first `n` polls report an event and the next one reports none, one call of
`host.service` terminates, every wait it requests from the transport is `t`
(as an unsigned 32-bit number), and when no object allocation fails it
requests `n + 1` of them, `(n + 1) * t` in all: the timeout bounds each single
wait, and a fresh wait is started after each delivered event. -/
theorem service_waits_per_poll (E : Env) (h f : Nat) (arg1 : JSValue) (rest : List JSValue)
    (t : Int) (es : List ENetEvent) (fuel : Nat)
    (ht : E.JS_ToInt32 arg1 = .ok t)
    (hpolls : ∀ i e, es[i]? = some e → E.enet_host_service i = .event e)
    (hend : ∀ e, E.enet_host_service es.length ≠ .event e)
    (hfuel : es.length < fuel) :
    ∃ o, js_enet_host_service E fuel (.classObject .enet_host_id (some h))
        (.function f :: arg1 :: rest) = some o ∧
      (∀ w ∈ waits o.log, w = toUint32 t) ∧
      ((∀ j, E.JS_NewObjectClass_fails j = false) →
        waits o.log = List.replicate (es.length + 1) (toUint32 t) ∧
        (waits o.log).sum = (es.length + 1) * toUint32 t) := by
  obtain ⟨o, ho, hall, hexact⟩ := service_loop_run E h (.function f) t es 0 0 fuel
    (fun i e hi => by simpa using hpolls i e hi) (fun e => by simpa using hend e) hfuel
  refine ⟨o, ?_, hall, ?_⟩
  · simp only [js_enet_host_service, JS_GetOpaque, JS_IsFunction, ht, storedInt32]
    simpa using ho
  · intro hok
    obtain ⟨_, hw, _⟩ := hexact hok
    refine ⟨hw, ?_⟩
    rw [hw, List.sum_replicate, smul_eq_mul]

/-- Witness of C4, amended: three events, four polls of 1000 each. -/
theorem service_waits_per_poll_witness :
    ∃ o, js_enet_host_service traffic 4 (.classObject .enet_host_id (some 1))
        [.function 0, .int32 1000] = some o ∧
      (∀ w ∈ waits o.log, w = 1000) ∧
      waits o.log = [1000, 1000, 1000, 1000] ∧ (waits o.log).sum = 4000 :=
  have ⟨o, h1, h2, h3⟩ := service_waits_per_poll traffic 1 0 (.int32 1000) [] 1000
    [.connect 7, .receive 7 0 ⟨"\x7b\x7d".toList, 2⟩, .disconnect 7] 4 rfl
    (fun i e hi => by
      match i, hi with
      | 0, hi => simp at hi; subst hi; rfl
      | 1, hi => simp at hi; subst hi; rfl
      | 2, hi => simp at hi; subst hi; rfl
      | _ + 3, hi => simp at hi)
    (fun e => by simp [traffic])
    (by decide)
  ⟨o, h1, h2, (h3 (fun _ => rfl)).1, (h3 (fun _ => rfl)).2⟩

/-- C5 fails for receive and disconnect events: on a transport reporting a
connect, a receive and a disconnect for peer 7 the callback is invoked three
times, in that order, but only the connect object carries a `peer`; and for
any environment the receive and disconnect objects are the same whichever peer
the event concerns. -/
theorem service_events_omit_peer :
    (∃ o, js_enet_host_service traffic 4 (.classObject .enet_host_id (some 1))
        [.function 0] = some o ∧
      callbackArgs o.log =
        [.object [("type", .string "connect"),
                  ("peer", .classObject .enet_peer_class_id (some 7))],
         .object [("type", .string "receive"), ("channelID", .int32 0), ("data", .object [])],
         .object [("type", .string "disconnect")]]) ∧
    ∀ (E : Env) (p q ch : Nat) (packet : ENetPacket),
      eventObject E (.receive p ch packet) = eventObject E (.receive q ch packet) ∧
      eventObject E (.disconnect p) = eventObject E (.disconnect q) :=
  ⟨⟨_, rfl, rfl⟩, fun _ _ _ _ _ => ⟨rfl, rfl⟩⟩

/-- C7 as stated fails: the one byte `{` does not decode and the four bytes
`null` decode to the value null, yet the callback receives the same event
object for both, with `data` null. -/
theorem decode_failure_marker_is_null :
    JS_IsException (garbageThenNull.JS_ParseJSON "\x7b".toList) = true ∧
    garbageThenNull.JS_ParseJSON "null".toList = .null ∧
    ∃ o, js_enet_host_service garbageThenNull 3 (.classObject .enet_host_id (some 1))
        [.function 0] = some o ∧
      callbackArgs o.log =
        [.object [("type", .string "receive"), ("channelID", .int32 0), ("data", .null)],
         .object [("type", .string "receive"), ("channelID", .int32 0), ("data", .null)]] :=
  ⟨rfl, rfl, _, rfl, rfl⟩

/-- C7, amended. In a call of `host.service` that runs to its end without an
allocation failure, for every received packet whose payload fails to decode
the callback is still invoked with a receive event, whose `data` is null; the
same event object is delivered for a payload that decodes to the value null,
and a different one for a payload that decodes to any other value. -/
theorem service_surfaces_decode_failure (E : Env) (h f : Nat) (rest : List JSValue)
    (es : List ENetEvent) (fuel i peer ch : Nat) (packet : ENetPacket)
    (hpolls : ∀ i e, es[i]? = some e → E.enet_host_service i = .event e)
    (hend : ∀ e, E.enet_host_service es.length ≠ .event e)
    (hok : ∀ j, E.JS_NewObjectClass_fails j = false)
    (hfuel : es.length < fuel)
    (hi : es[i]? = some (.receive peer ch packet))
    (hbad : JS_IsException (E.JS_ParseJSON (parseInput packet)) = true) :
    ∃ o, js_enet_host_service E fuel (.classObject .enet_host_id (some h))
        (.function f :: rest) = some o ∧
      (callbackArgs o.log)[i]? =
        some (.object [("type", .string "receive"), ("channelID", .int32 ch),
                       ("data", .null)]) ∧
      ∀ packet2 : ENetPacket,
        (E.JS_ParseJSON (parseInput packet2) = .null →
          eventObject E (.receive peer ch packet2) =
            .object [("type", .string "receive"), ("channelID", .int32 ch), ("data", .null)]) ∧
        (JS_IsException (E.JS_ParseJSON (parseInput packet2)) = false →
          E.JS_ParseJSON (parseInput packet2) ≠ .null →
          eventObject E (.receive peer ch packet2) ≠
            .object [("type", .string "receive"), ("channelID", .int32 ch), ("data", .null)]) := by
  obtain ⟨o, ho, -, hexact⟩ := service_loop_run E h (.function f)
    (match rest with
      | [] => 1000
      | arg1 :: _ => storedInt32 (E.JS_ToInt32 arg1)) es 0 0 fuel
    (fun i e hi => by simpa using hpolls i e hi) (fun e => by simpa using hend e) hfuel
  obtain ⟨-, -, hargs⟩ := hexact hok
  refine ⟨o, ?_, ?_, ?_⟩
  · simp only [js_enet_host_service, JS_GetOpaque, JS_IsFunction]
    simpa using ho
  · rw [hargs, List.getElem?_map, hi]
    simp [eventObject, event_obj, hbad]
  · intro packet2
    constructor
    · intro hnull
      simp [eventObject, event_obj, hnull, JS_IsException]
    · intro hgood hne
      simp [eventObject, event_obj, hgood, hne]

/-- Witness of C7, amended: the undecodable byte `{` arrives first, and the
packet `null` that follows it yields the same event object. -/
theorem service_surfaces_decode_failure_witness :
    ∃ o, js_enet_host_service garbageThenNull 3 (.classObject .enet_host_id (some 1))
        [.function 0] = some o ∧
      (callbackArgs o.log)[0]? =
        some (.object [("type", .string "receive"), ("channelID", .int32 0),
                       ("data", .null)]) ∧
      eventObject garbageThenNull (.receive 7 0 ⟨"null".toList, 4⟩) =
        .object [("type", .string "receive"), ("channelID", .int32 0), ("data", .null)] :=
  have ⟨o, h1, h2, h3⟩ := service_surfaces_decode_failure garbageThenNull 1 0 []
    [.receive 7 0 ⟨"\x7b".toList, 1⟩, .receive 7 0 ⟨"null".toList, 4⟩] 3 0 7 0
    ⟨"\x7b".toList, 1⟩
    (fun i e hi => by
      match i, hi with
      | 0, hi => simp at hi; subst hi; rfl
      | 1, hi => simp at hi; subst hi; rfl
      | _ + 2, hi => simp at hi)
    (fun e => by simp [garbageThenNull])
    (fun _ => rfl)
    (by decide) rfl rfl
  ⟨o, h1, h2, (h3 ⟨"null".toList, 4⟩).1 rfl⟩

/-! ## The claims about `send` and about argument checks -/

/-- C6 fails: for every object `v` whose JSON text is `text`, the packet that
`js_enet_peer_send` hands to the transport holds the characters of `text` and
the terminating NUL, with `dataLength = strlen(text) + 1`, and the receive path
gives the JSON decoder that whole packet, terminator included; when the decoder
rejects a text followed by a NUL, as the grammar of JSON requires, the receive
event carries `data` null and not `v`. -/
theorem send_packet_carries_terminator (E : Env) (peer : Nat) (v : JSValue)
    (rest : List JSValue) (text : List Char)
    (hobj : JS_IsObject v = true)
    (hjson : JS_IsException (E.JS_JSONStringify v) = false)
    (htext : E.JS_ToCString (E.JS_JSONStringify v) = some text) :
    ∃ packet : ENetPacket,
      (js_enet_peer_send E (.classObject .enet_peer_class_id (some peer)) (v :: rest)).log =
        [.enet_packet_create text (strlen text + 1), .enet_peer_send peer 0 packet] ∧
      packet.dataLength = strlen text + 1 ∧
      parseInput packet = cstr text ++ [NUL] ∧
      (JS_IsException (E.JS_ParseJSON (cstr text ++ [NUL])) = true →
        ∀ q ch : Nat, eventObject E (.receive q ch packet) =
          .object [("type", .string "receive"), ("channelID", .int32 ch), ("data", .null)]) := by
  have hlen : (cstr text ++ [NUL]).length = strlen text + 1 := by
    simp [strlen]
  have hinput : parseInput (enet_packet_create text (strlen text + 1)) = cstr text ++ [NUL] := by
    simp only [parseInput, enet_packet_create, take_strlen_succ]
    rw [← hlen, List.take_length]
  refine ⟨enet_packet_create text (strlen text + 1), ?_, rfl, hinput, ?_⟩
  · simp only [js_enet_peer_send, JS_GetOpaque, if_true, hobj, hjson, htext, Bool.not_true,
      Bool.false_eq_true, if_false]
    split <;> rfl
  · intro hbad q ch
    simp [eventObject, event_obj, hinput, hbad]

/-- Evaluation of C6 at `send({})`: the packet is the three bytes `{`, `}`, NUL,
and with a decoder that accepts the text `{}` only without the NUL the receive
event for that packet carries `data` null. -/
theorem send_packet_carries_terminator_witness :
    ∃ packet : ENetPacket,
      (js_enet_peer_send loopback (.classObject .enet_peer_class_id (some 2))
        [.object []]).log =
        [.enet_packet_create "\x7b\x7d".toList 3, .enet_peer_send 2 0 packet] ∧
      packet.dataLength = 3 ∧
      parseInput packet = "\x7b\x7d".toList ++ [NUL] ∧
      eventObject loopback (.receive 7 0 packet) =
        .object [("type", .string "receive"), ("channelID", .int32 0), ("data", .null)] :=
  have ⟨packet, h1, h2, h3, h4⟩ :=
    send_packet_carries_terminator loopback 2 (.object []) [] "\x7b\x7d".toList rfl rfl rfl
  ⟨packet, h1, h2, h3, h4 rfl 7 0⟩

/-- C8 fails for `connect` and `service`: `js_enet_host_connect` calls
`enet_address_set_host` and `enet_host_connect` whatever the three conversions
returned, and `js_enet_host_service` polls although `JS_ToInt32` failed on its
timeout.  With `undefined` for both arguments, which neither `JS_ToCString` nor
`JS_ToInt32` converts and which does not resolve, `connect` still initiates a
connection and returns a peer object, and `service` still polls. -/
theorem connect_and_service_ignore_failed_conversions :
    (∀ (E : Env) (h : Nat) (arg0 arg1 : JSValue) (rest : List JSValue),
      (js_enet_host_connect E (.classObject .enet_host_id (some h)) (arg0 :: arg1 :: rest)).log =
        [.enet_address_set_host (E.JS_ToCString arg0),
         .enet_host_connect h
           ⟨E.enet_address_set_host (E.JS_ToCString arg0),
             toUint16 (storedInt32 (E.JS_ToInt32 arg1))⟩ 2 0]) ∧
    loopback.JS_ToCString .undefined = none ∧
    loopback.JS_ToInt32 .undefined = .error 0 ∧
    loopback.enet_address_set_host none = none ∧
    js_enet_host_connect loopback (.classObject .enet_host_id (some 1))
        [.undefined, .undefined] =
      ⟨.classObject .enet_peer_class_id (some 2),
        [.enet_address_set_host none, .enet_host_connect 1 ⟨none, 0⟩ 2 0]⟩ ∧
    js_enet_host_service loopback 1 (.classObject .enet_host_id (some 1))
        [.function 0, .undefined] =
      some ⟨.undefined, [.enet_host_service 1 0]⟩ := by
  refine ⟨?_, rfl, rfl, rfl, rfl, rfl⟩
  intro E h arg0 arg1 rest
  simp only [js_enet_host_connect, JS_GetOpaque, if_true]
  split
  · rfl
  · split <;> rfl

end QjsEnet
